import Mathlib

/-!
Shallow embedding of `src/Trinity.C/src/Network/Server/posix/TrinitySocketServer.cpp`
(the POSIX socket server of GraphEngine).

Modelling conventions:
* Machine integers (`uint32_t` counters `p` and `bytes_left` in `ProcessRecv`)
  are `Nat` with explicit reduction modulo `2^32` where the source can overflow
  or underflow.
* The C heap is a flat, non-reusing allocator: every `malloc`/`realloc` returns
  a fresh numeric id, `free` marks a block dead but its bytes stay observable,
  so behaviour after a use-after-free slip in the source remains visible in the
  model instead of being undefined.
* `std::map<int, PerSocketContextObject*>` is an association list sorted by key;
  pointer values are allocation ids, `0` stands for `nullptr` here because the
  model never hands out id 0 for a context block that is also stored in the map
  in the scenarios below (the null value only arises from `operator[]`
  default-insertion, which value-initialises the mapped pointer).
* The spinlock around the map serialises accesses; each map operation is modelled
  as one atomic function, which is exactly what the lock guarantees.
* `read(2)` / `write(2)` results are supplied by an oracle list: each entry
  decides the outcome of one call (`deliver k` = success with at most `k` bytes,
  `eof` = return 0, `errBlock` = -1 with errno EAGAIN, `errHard` = -1 with
  another errno).
-/

/-- 2^32, the modulus of the `uint32_t` arithmetic in `ProcessRecv`. -/
def U32 : Nat := 4294967296

/-- One heap block: a liveness flag (false once `free`d), the allocated size,
and the byte contents (bytes are `Nat` values; the source never interprets
them beyond copying). `data` can grow longer than `size` when the source
writes out of bounds; the model records those bytes instead of crashing. -/
structure Block where
  live : Bool
  size : Nat
  data : List Nat
deriving DecidableEq, Repr

/-- Flat non-reusing heap: `next` is the next fresh allocation id. -/
structure Heap where
  next : Nat
  blocks : List (Nat × Block)
deriving DecidableEq, Repr

/-- The empty heap. -/
def emptyHeap : Heap := ⟨0, []⟩

/-- Association lookup on the block list (first match wins). -/
def blkLookup : List (Nat × Block) → Nat → Option Block
  | [], _ => none
  | e :: t, i => if e.1 = i then some e.2 else blkLookup t i

/-- Lookup a block by id. -/
def Heap.lookupB (h : Heap) (i : Nat) : Option Block := blkLookup h.blocks i

/-- Liveness of a block id (`false` for freed or never-allocated ids). -/
def blockLive (h : Heap) (i : Nat) : Bool := ((h.lookupB i).getD ⟨false, 0, []⟩).live

/-- Allocated size recorded for a block id (0 for unknown ids). -/
def blockSize (h : Heap) (i : Nat) : Nat := ((h.lookupB i).getD ⟨false, 0, []⟩).size

/-- Byte contents of a block id ([] for unknown ids). -/
def dataOf (h : Heap) (i : Nat) : List Nat := ((h.lookupB i).getD ⟨false, 0, []⟩).data

/-- malloc: returns a fresh id; contents are uninitialised in C, modelled as
zero bytes. -/
def Heap.alloc (h : Heap) (n : Nat) : Nat × Heap :=
  (h.next, ⟨h.next + 1, (h.next, ⟨true, n, List.replicate n 0⟩) :: h.blocks⟩)

/-- Update the block stored under id `i` (identity on every other entry). -/
def updBlocks (l : List (Nat × Block)) (i : Nat) (f : Block → Block) : List (Nat × Block) :=
  l.map fun e => if e.1 = i then (e.1, f e.2) else e

/-- free: marks the block dead; double free of an already dead block leaves it
dead (the real behaviour is undefined, the model keeps going so that the slip
stays observable). -/
def Heap.free (h : Heap) (i : Nat) : Heap :=
  ⟨h.next, updBlocks h.blocks i fun b => ⟨false, b.size, b.data⟩⟩

/-- Overwrite `bs` into `old` starting at offset `off`, extending with zero
padding when the write runs past the end (an out-of-bounds write in the
source; the model records where the bytes land under a no-reuse allocator).
A zero-length write leaves the memory untouched. -/
def writeExt (old : List Nat) (off : Nat) (bs : List Nat) : List Nat :=
  if bs.isEmpty then old
  else old.take off ++ List.replicate (off - old.length) 0 ++ bs ++ old.drop (off + bs.length)

/-- Write bytes through a block id (no-op on unknown ids; a write to a dead
block is a use-after-free in the source, recorded rather than rejected). -/
def Heap.write (h : Heap) (i off : Nat) (bs : List Nat) : Heap :=
  ⟨h.next, updBlocks h.blocks i fun b => ⟨b.live, b.size, writeExt b.data off bs⟩⟩

/-- Read `n` bytes at offset `off` from block `i` (raw memory read, liveness
not checked, as on the machine). -/
def readBytes (h : Heap) (i off n : Nat) : List Nat := ((dataOf h i).drop off).take n

/-- realloc to `n` bytes. `moved = true` models the C-permitted case where the
block is relocated: contents are copied, the old block is freed, a fresh id is
returned. `moved = false` grows/shrinks in place. -/
def Heap.reallocB (h : Heap) (i n : Nat) (moved : Bool) : Nat × Heap :=
  if moved then
    let old := (h.lookupB i).getD ⟨false, 0, []⟩
    let h1 := h.free i
    (h1.next, ⟨h1.next + 1, (h1.next, ⟨true, n, (old.data ++ List.replicate (n - old.data.length) 0).take n⟩) :: h1.blocks⟩)
  else
    (i, ⟨h.next, updBlocks h.blocks i fun b => ⟨b.live, n, (b.data ++ List.replicate (n - b.data.length) 0).take n⟩⟩)

/-! ## Connection registry (`psco_map`, a `std::map<int, PerSocketContextObject*>`) -/

/-- The registry: descriptor to context-pointer (allocation id; 0 = nullptr),
kept sorted by key as `std::map` is. -/
abbrev Registry : Type := List (Nat × Nat)

/-- Lookup in the registry without mutating it. -/
def regLookup : Registry → Nat → Option Nat
  | [], _ => none
  | e :: t, k => if e.1 = k then some e.2 else regLookup t k

/-- `std::map::insert`: inserts at the sorted position, and is a silent no-op
when the key is already present (the return value is discarded by the source). -/
def regInsert : Registry → Nat → Nat → Registry
  | [], k, v => [(k, v)]
  | e :: t, k, v =>
    if k < e.1 then (k, v) :: e :: t
    else if k = e.1 then e :: t
    else e :: regInsert t k v

/-- `std::map::erase`: removes the entry if present. -/
def regErase : Registry → Nat → Registry
  | [], _ => []
  | e :: t, k => if e.1 = k then t else e :: regErase t k

/-- `std::map::operator[]`: returns the mapped value; a missing key is
default-inserted with a value-initialised pointer (nullptr, modelled as 0)
and that null value is returned. Returns (value, updated map). -/
def regIndex (r : Registry) (k : Nat) : Nat × Registry :=
  match regLookup r k with
  | some v => (v, r)
  | none => (0, regInsert r k 0)

/-- Sortedness check for a registry (strictly increasing keys); `std::map`
always satisfies it. -/
def regSortedB : Registry → Bool
  | [] => true
  | [_] => true
  | a :: b :: t => decide (a.1 < b.1) && regSortedB (b :: t)

/-! ## Per-socket context (`PerSocketContextObject`) -/

/-- Configuration constants consumed by the server.
Modelled from the spec: `UInt32_Contants::RecvBufferSize` (the default and
minimum receive buffer size) lives in a header that is not part of the source
tree; it is kept abstract as a field so every statement is parametric in it. -/
structure Config where
  RecvBufferSize : Nat
deriving DecidableEq, Repr

/-- The fixed width of the length prefix. The source reads the prefix into a
`uint32_t body_length`, so `UInt32_Contants::MessagePrefixLength` is 4 bytes. -/
def headerLength : Nat := 4

/-- `PerSocketContextObject`, with pointers replaced by allocation ids.
`self` is the id of the `malloc(sizeof(PerSocketContextObject))` block so that
`free(p)` is representable. `Message`, `ReceivedMessageBodyBytes` and
`RemainingBytesToSend` are uninitialised after allocation in the source; the
model starts them at 0. -/
structure PerSocketContextObject where
  fd : Nat
  self : Nat
  RecvBuffer : Nat
  RecvBufferLen : Nat
  avg_RecvBufferLen : Nat
  Message : Nat
  ReceivedMessageBodyBytes : Nat
  RemainingBytesToSend : Nat
  WaitingHandshakeMessage : Bool
deriving DecidableEq, Repr

/-- `AddPerSocketContextObject`: inserts fd ↦ context pointer under the
spinlock; the result of `std::map::insert` is discarded. -/
def AddPerSocketContextObject (p : PerSocketContextObject) (r : Registry) : Registry :=
  regInsert r p.fd p.self

/-- `RemovePerSocketContextObject`. -/
def RemovePerSocketContextObject (fd : Nat) (r : Registry) : Registry :=
  regErase r fd

/-- `GetPerSocketContextObject`: `psco_map[fd]` under the spinlock — note the
`operator[]` default-insertion semantics. Returns (pointer, updated map). -/
def GetPerSocketContextObject (r : Registry) (fd : Nat) : Nat × Registry :=
  regIndex r fd

/-- `AllocatePerSocketContextObject`: mallocs the context and a receive buffer
of the configured default size, and initialises the length/average fields to
that size. `handshake` is `TrinityConfig::Handshake()`. -/
def AllocatePerSocketContextObject (cfg : Config) (fd : Nat) (h : Heap) (handshake : Bool) :
    PerSocketContextObject × Heap :=
  let a1 := h.alloc 1
  let a2 := a1.2.alloc cfg.RecvBufferSize
  ({ fd := fd
     self := a1.1
     RecvBuffer := a2.1
     RecvBufferLen := cfg.RecvBufferSize
     avg_RecvBufferLen := cfg.RecvBufferSize
     Message := 0
     ReceivedMessageBodyBytes := 0
     RemainingBytesToSend := 0
     WaitingHandshakeMessage := handshake }, a2.2)

/-- `FreePerSocketContextObject`: frees the receive buffer, then the context. -/
def FreePerSocketContextObject (p : PerSocketContextObject) (h : Heap) : Heap :=
  (h.free p.RecvBuffer).free p.self

/-- The shrink test `avg_RecvBufferLen < RecvBufferLen / Float_Constants::AvgSlideWin_r`.
Modelled from the spec: `Float_Constants` is not in the source tree; the source
comment says the buffer is adjusted when the average "drops below half of
current recv buf len", so `AvgSlideWin_r = 2` and the test is `2 * avg < len`
in exact arithmetic. -/
def shrinkCond (avg len : Nat) : Bool := decide (2 * avg < len)

/-- `ResetContextObjects`. The sliding-window product
`(uint32_t)(avg * AvgSlideWin_a + body * AvgSlideWin_b)` uses float constants
that are not in the source tree; the whole rounded expression is abstracted as
the parameter `slide`. The source first frees `Message`, then updates the
average, clamps it to the configured minimum, and reallocates the receive
buffer down to the new average exactly when the shrink test fires. -/
def ResetContextObjects (slide : Nat → Nat → Nat) (cfg : Config)
    (p : PerSocketContextObject) (h : Heap) : PerSocketContextObject × Heap :=
  let h1 := h.free p.Message
  let avg1 := max (slide p.avg_RecvBufferLen p.ReceivedMessageBodyBytes) cfg.RecvBufferSize
  if shrinkCond avg1 p.RecvBufferLen then
    let h2 := h1.free p.RecvBuffer
    let a := h2.alloc avg1
    ({ p with avg_RecvBufferLen := avg1, RecvBufferLen := avg1, RecvBuffer := a.1 }, a.2)
  else
    ({ p with avg_RecvBufferLen := avg1 }, h1)

/-- A representative sliding-window product.
Modelled from the spec: the weights α (previous) and β (new sample) are
configuration not present in the source tree; this instance uses α = 0.85 and
β = 0.15 (weights summing to 1) evaluated in exact integer arithmetic. Used
only to instantiate theorems that hold for every `slide`. -/
def slideDefault (avg body : Nat) : Nat := (17 * avg + 3 * body) / 20

/-- `CloseClientConnection`: removes the registry entry first, then closes the
OS descriptor (no effect on the modelled state), then frees the context. The
`lingering` flag is accepted and ignored by the source. -/
def CloseClientConnection (p : PerSocketContextObject) (h : Heap) (r : Registry)
    (lingering : Bool) : Heap × Registry :=
  let r1 := RemovePerSocketContextObject p.fd r
  (FreePerSocketContextObject p h, r1)

/-! ## Receive pipeline (`ProcessRecv`) -/

/-- The outcome of one `read(2)` call, chosen by the oracle:
`deliver k` = success returning at most `k` bytes (further limited by the
request size and the bytes remaining on the wire), `eof` = return 0,
`errBlock` = -1 with errno EAGAIN, `errHard` = -1 with another errno. -/
inductive ReadEv where
  | deliver (k : Nat)
  | eof
  | errBlock
  | errHard
deriving DecidableEq, Repr

/-- Result of the length-prefix read loop (`ProcessRecv` lines 194-201). -/
inductive HeaderRes where
  | done (buf : List Nat) (evs : List ReadEv) (stream : List Nat)
  | stuck (p bl : Nat) (buf : List Nat)
deriving DecidableEq, Repr

/-- Overwrite `bs` into `old` at offset `off`, dropping bytes past the end:
used for the 4-byte stack local `body_length`, where writing past the end
smashes the stack — the model tracks only the local itself. -/
def writeAt : List Nat → Nat → List Nat → List Nat
  | old, _, [] => old
  | [], _, _ => []
  | _ :: t, 0, x :: xs => x :: writeAt t 0 xs
  | b :: t, o + 1, bs => b :: writeAt t o bs

/-- The length-prefix read loop of `ProcessRecv`:
`while (bytes_left > 0) { bytes_read = read(fd, &body_length + p, bytes_left);
p += bytes_read; bytes_left -= bytes_left_read; }`.
The loop checks nothing about `bytes_read`: a 0 return (peer disconnect)
changes nothing and the loop spins; a -1 return (any errno, EAGAIN included)
is added to the `uint32_t` counters, so `p` jumps by 2^32 - 1 and
`bytes_left` grows by 1 modulo 2^32. The oracle list is the fuel: running out
of events with `bytes_left > 0` is reported as `stuck`. -/
def headerLoop : List ReadEv → List Nat → Nat → Nat → List Nat → HeaderRes
  | evs, stream, _, 0, buf => .done buf evs stream
  | [], _, p, bl + 1, buf => .stuck p (bl + 1) buf
  | .deliver k :: evs, stream, p, bl + 1, buf =>
    let n := min (min k (bl + 1)) stream.length
    headerLoop evs (stream.drop n) ((p + n) % U32) (bl + 1 - n) (writeAt buf p (stream.take n))
  | .eof :: evs, stream, p, bl + 1, buf => headerLoop evs stream p (bl + 1) buf
  | .errBlock :: evs, stream, p, bl + 1, buf =>
    headerLoop evs stream ((p + (U32 - 1)) % U32) ((bl + 2) % U32) buf
  | .errHard :: evs, stream, p, bl + 1, buf =>
    headerLoop evs stream ((p + (U32 - 1)) % U32) ((bl + 2) % U32) buf

/-- Little-endian decoding of the 4 prefix bytes into `uint32_t body_length`
(the in-memory layout of a `uint32_t` on the targeted platforms). -/
def decodeU32 : List Nat → Nat
  | [a, b, c, d] => a + 256 * b + 65536 * c + 16777216 * d
  | _ => 0

/-- Little-endian encoding of a body length as the 4 wire prefix bytes. -/
def encodeU32 (n : Nat) : List Nat :=
  [n % 256, n / 256 % 256, n / 65536 % 256, n / 16777216 % 256]

/-- The buffer-sizing step of `ProcessRecv` (lines 204-208): grow the receive
buffer to exactly `body_length` when it exceeds the current capacity,
otherwise leave it alone. `moved` selects whether `realloc` relocates. -/
def growBuffer (p : PerSocketContextObject) (h : Heap) (bodyLength : Nat) (moved : Bool) :
    PerSocketContextObject × Heap :=
  if p.RecvBufferLen < bodyLength then
    let a := h.reallocB p.RecvBuffer bodyLength moved
    ({ p with RecvBuffer := a.1, RecvBufferLen := bodyLength }, a.2)
  else (p, h)

/-- Overall outcome of `ProcessRecv`. -/
inductive RecvOutcome where
  | ok (p : PerSocketContextObject) (h : Heap) (r : Registry)
  | closedConn (h : Heap) (r : Registry)
  | stuckHeader (pp bl : Nat) (buf : List Nat) (h : Heap) (r : Registry)
  | stuckBody (pp bl : Nat) (p : PerSocketContextObject) (h : Heap) (r : Registry)
deriving DecidableEq, Repr

/-- The body read loop of `ProcessRecv` (lines 210-223). A 0 return or a -1
return with errno other than EAGAIN closes the connection and aborts. A -1
return with EAGAIN passes the check but still falls through to
`p += bytes_read; bytes_left -= bytes_read;`, so the `uint32_t` counters are
corrupted exactly as in the header loop. `bufId` is the `char * buf` local
captured before the realloc; writes go through it. `bodyLen` is kept to fill
`ReceivedMessageBodyBytes` at the end. -/
def bodyLoop : List ReadEv → List Nat → Nat → Nat → Nat → Nat →
    PerSocketContextObject → Heap → Registry → RecvOutcome
  | _, _, _, 0, bodyLen, bufId, p, h, r =>
    .ok { p with Message := bufId, ReceivedMessageBodyBytes := bodyLen } h r
  | [], _, pp, bl + 1, _, _, p, h, r => .stuckBody pp (bl + 1) p h r
  | .deliver k :: evs, stream, pp, bl + 1, bodyLen, bufId, p, h, r =>
    let n := min (min k (bl + 1)) stream.length
    bodyLoop evs (stream.drop n) ((pp + n) % U32) (bl + 1 - n) bodyLen bufId p
      (h.write bufId pp (stream.take n)) r
  | .eof :: _, _, _, _ + 1, _, _, p, h, r =>
    let c := CloseClientConnection p h r false
    .closedConn c.1 c.2
  | .errHard :: _, _, _, _ + 1, _, _, p, h, r =>
    let c := CloseClientConnection p h r false
    .closedConn c.1 c.2
  | .errBlock :: evs, stream, pp, bl + 1, bodyLen, bufId, p, h, r =>
    bodyLoop evs stream ((pp + (U32 - 1)) % U32) ((bl + 2) % U32) bodyLen bufId p h r

/-- `ProcessRecv`: read the 4-byte length prefix (unchecked loop), decode it,
capture `char * buf = pContext->RecvBuffer` BEFORE the growth step, grow the
buffer if needed, then read the body through the captured `buf` and record
`Message = buf` and `ReceivedMessageBodyBytes = body_length`. -/
def ProcessRecv (p : PerSocketContextObject) (h : Heap) (r : Registry)
    (stream : List Nat) (evs : List ReadEv) (moved : Bool) : RecvOutcome :=
  match headerLoop evs stream 0 headerLength (List.replicate 4 0) with
  | .stuck pp bl buf => .stuckHeader pp bl buf h r
  | .done buf evs2 stream2 =>
    let bodyLength := decodeU32 buf
    let bufId := p.RecvBuffer
    let g := growBuffer p h bodyLength moved
    bodyLoop evs2 stream2 0 bodyLength bodyLength bufId g.1 g.2 r

/-! ## Send pipeline (`SendResponse`) -/

/-- Outcome of the single `write(2)` call, chosen by the oracle. -/
inductive WriteRes where
  | wrote (n : Nat)
  | werror
deriving DecidableEq, Repr

/-- Result record of `SendResponse`. -/
structure SendResult where
  rearmed : Bool
  ctx : PerSocketContextObject
  heap : Heap
  reg : Registry
deriving DecidableEq, Repr

/-- `SendResponse`: re-arms the descriptor with the event monitor, performs one
`write(fd, Message, RemainingBytesToSend)` whose result `w` is discarded by
the source (no loop, no error check), then calls `ResetContextObjects`. -/
def SendResponse (w : WriteRes) (slide : Nat → Nat → Nat) (cfg : Config)
    (p : PerSocketContextObject) (h : Heap) (r : Registry) : SendResult :=
  let rc := ResetContextObjects slide cfg p h
  { rearmed := true, ctx := rc.1, heap := rc.2, reg := r }

/-! ## Connection lifetime operation sequences -/

/-- The two operations that touch a connection's buffer capacity after
allocation: the growth step of a receive (with the decoded body length), and
the reset after a response (with the body size of the message just consumed;
a completed receive has set `Message` to the captured buffer pointer). -/
inductive ConnOp where
  | grow (bodyLen : Nat) (moved : Bool)
  | reset (body : Nat)
deriving DecidableEq, Repr

/-- Apply one lifetime operation to a context/heap pair. -/
def applyOp (slide : Nat → Nat → Nat) (cfg : Config)
    (s : PerSocketContextObject × Heap) : ConnOp → PerSocketContextObject × Heap
  | .grow l m => growBuffer s.1 s.2 l m
  | .reset b =>
    ResetContextObjects slide cfg { s.1 with ReceivedMessageBodyBytes := b, Message := s.1.RecvBuffer } s.2

/-- Apply a sequence of lifetime operations. -/
def applyOps (slide : Nat → Nat → Nat) (cfg : Config)
    (s : PerSocketContextObject × Heap) (ops : List ConnOp) : PerSocketContextObject × Heap :=
  ops.foldl (applyOp slide cfg) s

/-! ## Server startup (`StartSocketServer`) -/

/-- Oracle for `StartSocketServer`: whether `getaddrinfo` succeeds, for each
address candidate whether `socket(2)` and `bind(2)` succeed, and whether
`listen(2)` and `InitializeEventMonitor` succeed. -/
structure StartOracle where
  gaiOk : Bool
  cands : List (Bool × Bool)
  listenOk : Bool
  monitorOk : Bool
deriving DecidableEq, Repr

/-- Outcome of `StartSocketServer`, carrying the still-open socket descriptors
and (for the bind-exhaustion failure) whether the addrinfo list was freed. -/
inductive StartOutcome where
  | failGetAddr
  | failBind (openSocks : List Nat) (addrinfoFreed : Bool)
  | failListen (openSocks : List Nat)
  | failMonitor (openSocks : List Nat)
  | started (acceptSock : Nat) (openSocks : List Nat)
deriving DecidableEq, Repr

/-- The bind loop of `StartSocketServer` (lines 133-142): for each candidate,
`socket()` then `bind()`; a failed `socket()` continues, a successful `bind`
breaks with that descriptor open, a failed `bind` closes the socket and
continues. Descriptors are numbered by candidate index. Returns the accepted
descriptor (if any) and the list of sockets still open. -/
def bindLoop : List (Bool × Bool) → Nat → Option Nat × List Nat
  | [], _ => (none, [])
  | (sockOk, bindOk) :: rest, i =>
    if sockOk then
      if bindOk then (some i, [i])
      else bindLoop rest (i + 1)
    else bindLoop rest (i + 1)

/-- `StartSocketServer` (lines 116-168): resolve, bind, listen, initialise the
event monitor, spawn the accept thread. On bind exhaustion it returns -1
without calling `freeaddrinfo`; on `listen` failure it returns -1 without
closing the listening socket; on monitor failure it closes the socket. -/
def StartSocketServer (o : StartOracle) : StartOutcome :=
  if !o.gaiOk then .failGetAddr
  else
    match bindLoop o.cands 0 with
    | (none, opens) => .failBind opens false
    | (some fd, opens) =>
      if !o.listenOk then .failListen opens
      else if !o.monitorOk then .failMonitor (opens.erase fd)
      else .started fd opens

/-! ## Outcome projections (used to state properties without binders) -/

/-- A default context value for total projections. -/
def defaultPSCO : PerSocketContextObject := ⟨0, 0, 0, 0, 0, 0, 0, 0, false⟩

/-- Did `ProcessRecv` return `true` (full message received)? -/
def recvOk : RecvOutcome → Bool
  | .ok .. => true
  | _ => false

/-- Context after a successful `ProcessRecv`. -/
def recvCtx : RecvOutcome → PerSocketContextObject
  | .ok p _ _ => p
  | .closedConn _ _ => defaultPSCO
  | .stuckHeader _ _ _ _ _ => defaultPSCO
  | .stuckBody _ _ p _ _ => p

/-- Heap after `ProcessRecv`. -/
def recvHeap : RecvOutcome → Heap
  | .ok _ h _ => h
  | .closedConn h _ => h
  | .stuckHeader _ _ _ h _ => h
  | .stuckBody _ _ _ h _ => h

/-- Registry after `ProcessRecv`. -/
def recvReg : RecvOutcome → Registry
  | .ok _ _ r => r
  | .closedConn _ r => r
  | .stuckHeader _ _ _ _ r => r
  | .stuckBody _ _ _ _ r => r

/-! ## Helper lemmas -/

theorem decode_encode (n : Nat) (hn : n < U32) : decodeU32 (encodeU32 n) = n := by
  simp only [decodeU32, encodeU32, U32] at *
  omega

theorem writeExt_take (bs : List Nat) (old : List Nat) :
    (writeExt old 0 bs).take bs.length = bs := by
  cases bs with
  | nil => simp [writeExt]
  | cons x xs =>
    show (writeExt old 0 (x :: xs)).take (x :: xs).length = x :: xs
    rw [writeExt]
    simp only [List.isEmpty_cons, List.take_zero, Nat.zero_sub, List.replicate_zero,
      List.nil_append, Bool.false_eq_true, if_false, Nat.zero_add]
    exact List.take_left (x :: xs) (old.drop (x :: xs).length)

theorem headerLoop_done (evs : List ReadEv) (stream : List Nat) (p : Nat) (buf : List Nat) :
    headerLoop evs stream p 0 buf = HeaderRes.done buf evs stream := by
  cases evs with
  | nil => rfl
  | cons e t => cases e <;> rfl

theorem bodyLoop_done (evs : List ReadEv) (stream : List Nat) (pp bodyLen bufId : Nat)
    (p : PerSocketContextObject) (h : Heap) (r : Registry) :
    bodyLoop evs stream pp 0 bodyLen bufId p h r =
      RecvOutcome.ok { p with Message := bufId, ReceivedMessageBodyBytes := bodyLen } h r := by
  cases evs with
  | nil => rfl
  | cons e t => cases e <;> rfl

theorem bodyLoop_deliver_step (k : Nat) (evs : List ReadEv) (stream : List Nat)
    (pp l bodyLen bufId : Nat) (p : PerSocketContextObject) (h : Heap) (r : Registry) :
    bodyLoop (ReadEv.deliver k :: evs) stream pp (l + 1) bodyLen bufId p h r =
      bodyLoop evs (stream.drop (min (min k (l + 1)) stream.length))
        ((pp + min (min k (l + 1)) stream.length) % U32)
        ((l + 1) - min (min k (l + 1)) stream.length) bodyLen bufId p
        (h.write bufId pp (stream.take (min (min k (l + 1)) stream.length))) r := rfl

/-- Running the body loop against a single read that delivers the whole body. -/
theorem bodyLoop_deliver_all (l : Nat) (evs : List ReadEv) (stream : List Nat)
    (bodyLen bufId : Nat) (p : PerSocketContextObject) (h : Heap) (r : Registry)
    (hlen : stream.length = l + 1) :
    bodyLoop (ReadEv.deliver (l + 1) :: evs) stream 0 (l + 1) bodyLen bufId p h r =
      RecvOutcome.ok { p with Message := bufId, ReceivedMessageBodyBytes := bodyLen }
        (h.write bufId 0 stream) r := by
  rw [bodyLoop_deliver_step]
  have hmin : min (min (l + 1) (l + 1)) stream.length = l + 1 := by
    simp [hlen]
  rw [hmin, hlen.symm]
  simp [List.drop_length, List.take_length, bodyLoop_done]

/-- A successful body loop only fills `Message` and `ReceivedMessageBodyBytes`
and leaves the registry alone. -/
theorem bodyLoop_ok_shape : ∀ (evs : List ReadEv) (stream : List Nat)
    (pp bl bodyLen bufId : Nat) (p : PerSocketContextObject) (h : Heap) (r : Registry)
    (q : PerSocketContextObject) (h2 : Heap) (r2 : Registry),
    bodyLoop evs stream pp bl bodyLen bufId p h r = RecvOutcome.ok q h2 r2 →
    q = { p with Message := bufId, ReceivedMessageBodyBytes := bodyLen } ∧ r2 = r := by
  intro evs
  induction evs with
  | nil =>
    intro stream pp bl bodyLen bufId p h r q h2 r2 heq
    match bl, heq with
    | 0, heq =>
      rw [bodyLoop_done] at heq
      cases heq
      exact ⟨rfl, rfl⟩
    | l + 1, heq => cases heq
  | cons e evs ih =>
    intro stream pp bl bodyLen bufId p h r q h2 r2 heq
    match bl, heq with
    | 0, heq =>
      rw [bodyLoop_done] at heq
      cases heq
      exact ⟨rfl, rfl⟩
    | l + 1, heq =>
      cases e with
      | deliver k =>
        rw [bodyLoop_deliver_step] at heq
        exact ih _ _ _ _ _ _ _ _ _ _ _ heq
      | eof => cases heq
      | errHard => cases heq
      | errBlock => exact ih _ _ _ _ _ _ _ _ _ _ _ heq

theorem blkLookup_updBlocks_self (l : List (Nat × Block)) (i : Nat) (f : Block → Block) :
    blkLookup (updBlocks l i f) i = (blkLookup l i).map f := by
  induction l with
  | nil => rfl
  | cons e t ih =>
    by_cases he : e.1 = i
    · simp [updBlocks, blkLookup, he]
    · simp [updBlocks, blkLookup, he] at ih ⊢
      exact ih

theorem blkLookup_updBlocks_ne (l : List (Nat × Block)) (i j : Nat) (f : Block → Block)
    (hne : j ≠ i) : blkLookup (updBlocks l i f) j = blkLookup l j := by
  induction l with
  | nil => rfl
  | cons e t ih =>
    simp only [updBlocks, List.map_cons] at ih ⊢
    by_cases he : e.1 = i
    · rw [if_pos he]
      have hej : ¬ e.1 = j := by rw [he]; exact fun hh => hne hh.symm
      simp only [blkLookup]
      rw [if_neg hej, if_neg hej]
      exact ih
    · rw [if_neg he]
      simp only [blkLookup]
      by_cases hej : e.1 = j
      · rw [if_pos hej, if_pos hej]
      · rw [if_neg hej, if_neg hej]
        exact ih

theorem blkLookup_mem (l : List (Nat × Block)) (i : Nat) (b : Block)
    (hl : blkLookup l i = some b) : (i, b) ∈ l := by
  induction l with
  | nil => cases hl
  | cons e t ih =>
    by_cases he : e.1 = i
    · simp only [blkLookup, if_pos he] at hl
      injection hl with hb
      subst hb
      subst he
      simp
    · simp only [blkLookup, if_neg he] at hl
      exact List.mem_cons_of_mem _ (ih hl)

/-- Well-formed heap: every stored id is below the free-id watermark. -/
def heapWF (h : Heap) : Prop := ∀ e ∈ h.blocks, e.1 < h.next

instance (h : Heap) : Decidable (heapWF h) :=
  inferInstanceAs (Decidable (∀ e ∈ h.blocks, e.1 < h.next))

theorem regSortedB_tail_lt (e : Nat × Nat) : ∀ (t : Registry), regSortedB (e :: t) = true →
    ∀ x ∈ t, e.1 < x.1 := by
  intro t
  induction t generalizing e with
  | nil => intro _ x hx; cases hx
  | cons b t2 ih =>
    intro hs x hx
    simp only [regSortedB, Bool.and_eq_true, decide_eq_true_eq] at hs
    cases hx with
    | head => exact hs.1
    | tail _ hx2 => exact Nat.lt_trans hs.1 (ih b hs.2 x hx2)

theorem regLookup_none_of_all_ne : ∀ (r : Registry) (k : Nat),
    (∀ x ∈ r, x.1 ≠ k) → regLookup r k = none := by
  intro r k
  induction r with
  | nil => intro _; rfl
  | cons e t ih =>
    intro hall
    simp only [regLookup, if_neg (hall e (List.mem_cons_self e t))]
    exact ih fun x hx => hall x (List.mem_cons_of_mem e hx)

theorem regInsert_sorted_dup : ∀ (r : Registry) (k v w : Nat), regSortedB r = true →
    regLookup r k = some w → regInsert r k v = r := by
  intro r
  induction r with
  | nil => intro k v w _ hl; cases hl
  | cons e t ih =>
    intro k v w hs hl
    by_cases hlt : k < e.1
    · exfalso
      have hne : e.1 ≠ k := Nat.ne_of_gt hlt
      simp only [regLookup, if_neg hne] at hl
      have : regLookup t k = none :=
        regLookup_none_of_all_ne t k fun x hx =>
          Nat.ne_of_gt (Nat.lt_trans hlt (regSortedB_tail_lt e t hs x hx))
      rw [this] at hl
      cases hl
    · by_cases heq : k = e.1
      · simp only [regInsert, if_neg hlt, if_pos heq]
      · have hne : e.1 ≠ k := fun hh => heq hh.symm
        simp only [regLookup, if_neg hne] at hl
        have hst : regSortedB t = true := by
          cases t with
          | nil => rfl
          | cons b t2 =>
            simp only [regSortedB, Bool.and_eq_true] at hs
            exact hs.2
        simp only [regInsert, if_neg hlt, if_neg heq]
        rw [ih k v w hst hl]

theorem regLookup_insert_self : ∀ (r : Registry) (k v : Nat), regLookup r k = none →
    regLookup (regInsert r k v) k = some v := by
  intro r
  induction r with
  | nil => intro k v _; simp [regInsert, regLookup]
  | cons e t ih =>
    intro k v hl
    have hne : e.1 ≠ k := by
      intro hh
      simp only [regLookup, if_pos hh] at hl
      cases hl
    simp only [regLookup, if_neg hne] at hl
    by_cases hlt : k < e.1
    · simp [regInsert, hlt, regLookup]
    · have hkeq : ¬ k = e.1 := fun hh => hne hh.symm
      simp only [regInsert, if_neg hlt, if_neg hkeq, regLookup, if_neg hne]
      exact ih k v hl

theorem regInsert_length : ∀ (r : Registry) (k v : Nat), regLookup r k = none →
    (regInsert r k v).length = r.length + 1 := by
  intro r
  induction r with
  | nil => intro k v _; rfl
  | cons e t ih =>
    intro k v hl
    have hne : e.1 ≠ k := by
      intro hh
      simp only [regLookup, if_pos hh] at hl
      cases hl
    simp only [regLookup, if_neg hne] at hl
    by_cases hlt : k < e.1
    · simp [regInsert, hlt]
    · have hkeq : ¬ k = e.1 := fun hh => hne hh.symm
      simp only [regInsert, if_neg hlt, if_neg hkeq, List.length_cons]
      rw [ih k v hl]

/-- The bind loop either exhausts every candidate leaving no socket open, or
stops at the first bound socket, which is then the only open one. -/
theorem bindLoop_spec : ∀ (c : List (Bool × Bool)) (i : Nat),
    bindLoop c i = (none, []) ∨ ∃ fd, bindLoop c i = (some fd, [fd]) := by
  intro c
  induction c with
  | nil => intro i; left; rfl
  | cons e rest ih =>
    intro i
    obtain ⟨sockOk, bindOk⟩ := e
    by_cases hso : sockOk = true
    · by_cases hbo : bindOk = true
      · right; exact ⟨i, by simp [bindLoop, hso, hbo]⟩
      · have : bindLoop ((sockOk, bindOk) :: rest) i = bindLoop rest (i + 1) := by
          simp [bindLoop, hso, hbo]
        rw [this]; exact ih (i + 1)
    · have : bindLoop ((sockOk, bindOk) :: rest) i = bindLoop rest (i + 1) := by
        simp [bindLoop, hso]
      rw [this]; exact ih (i + 1)

/-! ## Concrete example states shared by witnesses and counterexamples -/

/-- A small configuration (minimum/default buffer size 4 bytes) so that
witness evaluations stay small. -/
def cfgEx : Config := ⟨4⟩

/-- A freshly accepted connection context and its heap. -/
def allocEx : PerSocketContextObject × Heap :=
  AllocatePerSocketContextObject cfgEx 5 emptyHeap false

/-! ## Claim theorems -/

/-- C2: the would-block / error discipline claimed for the two read loops.
The source violates it, and this theorem evaluates the code at the failing
inputs: (1) in the length-prefix loop a would-block read (-1/EAGAIN) is added
to the `uint32_t` counters, sending `p` from 0 to 2^32-1 and `bytes_left`
from 4 to 5, instead of leaving them untouched; (2) a read returning 0 in the
prefix loop changes nothing and never closes the connection (the loop spins);
(3) a hard error in the prefix loop is treated identically to would-block, no
closure; (4) the body loop corrupts its counters on would-block the same way,
because the EAGAIN case falls through to the unconditional
`p += bytes_read; bytes_left -= bytes_read;`; (5) only the body loop's
0/hard-error case closes the connection as claimed. -/
theorem readLoops_would_block_corruption :
    headerLoop [ReadEv.errBlock] [9, 9, 9, 9] 0 4 [0, 0, 0, 0]
      = HeaderRes.stuck 4294967295 5 [0, 0, 0, 0]
    ∧ headerLoop [ReadEv.eof] [9, 9, 9, 9] 0 4 [0, 0, 0, 0]
      = HeaderRes.stuck 0 4 [0, 0, 0, 0]
    ∧ headerLoop [ReadEv.errHard] [9, 9, 9, 9] 0 4 [0, 0, 0, 0]
      = HeaderRes.stuck 4294967295 5 [0, 0, 0, 0]
    ∧ bodyLoop [ReadEv.errBlock] [9, 9, 9] 0 3 3 1 allocEx.1 allocEx.2 []
      = RecvOutcome.stuckBody 4294967295 4 allocEx.1 allocEx.2 []
    ∧ bodyLoop [ReadEv.eof] [9, 9, 9] 0 3 3 1 allocEx.1 allocEx.2 [(5, 0)]
      = RecvOutcome.closedConn (CloseClientConnection allocEx.1 allocEx.2 [(5, 0)] false).1
          (CloseClientConnection allocEx.1 allocEx.2 [(5, 0)] false).2
    ∧ bodyLoop [ReadEv.errHard] [9, 9, 9] 0 3 3 1 allocEx.1 allocEx.2 [(5, 0)]
      = RecvOutcome.closedConn (CloseClientConnection allocEx.1 allocEx.2 [(5, 0)] false).1
          (CloseClientConnection allocEx.1 allocEx.2 [(5, 0)] false).2 := by
  decide

/-- The receive pipeline evaluated on the first message of a fresh connection
whose 6-byte body exceeds the 4-byte buffer, with a relocating realloc. -/
def recvMovedEx : RecvOutcome :=
  ProcessRecv allocEx.1 allocEx.2 []
    (encodeU32 6 ++ [10, 11, 12, 13, 14, 15]) [ReadEv.deliver 4, ReadEv.deliver 6] true

/-- C3: `pending_message` is claimed to point into the current receive-buffer
allocation. The source captures `char * buf = pContext->RecvBuffer` before the
`realloc` and stores `Message = buf` afterwards, so when the growth step
relocates the buffer, the recorded message points into the freed pre-realloc
block, not into the live `RecvBuffer` allocation: the received bytes are in
the dead block and the live buffer holds none of them. -/
theorem pending_message_dangles_after_growth :
    recvOk recvMovedEx = true
    ∧ (recvCtx recvMovedEx).Message ≠ (recvCtx recvMovedEx).RecvBuffer
    ∧ blockLive (recvHeap recvMovedEx) (recvCtx recvMovedEx).Message = false
    ∧ blockLive (recvHeap recvMovedEx) (recvCtx recvMovedEx).RecvBuffer = true
    ∧ readBytes (recvHeap recvMovedEx) (recvCtx recvMovedEx).Message 0 6
        = [10, 11, 12, 13, 14, 15]
    ∧ readBytes (recvHeap recvMovedEx) (recvCtx recvMovedEx).RecvBuffer 0 6
        = [0, 0, 0, 0, 0, 0] := by
  decide

/-- A context that has just finished receiving a 3-byte message and owes a
7-byte response, registered under descriptor 5. -/
def sendCtxEx : PerSocketContextObject :=
  { allocEx.1 with
    Message := allocEx.1.RecvBuffer
    ReceivedMessageBodyBytes := 3
    RemainingBytesToSend := 7 }

/-- C7 counterexample: a failed `write` in `SendResponse` does not trigger
closure — the registry still holds the connection afterwards (the source
discards the `write` return value and unconditionally proceeds to
`ResetContextObjects`), contradicting the claim that a write error closes the
connection and removes it from the registry. -/
theorem SendResponse_write_error_no_close :
    (SendResponse WriteRes.werror slideDefault cfgEx sendCtxEx allocEx.2 [(5, 0)]).reg = [(5, 0)]
    ∧ regLookup (SendResponse WriteRes.werror slideDefault cfgEx sendCtxEx allocEx.2 [(5, 0)]).reg 5
      = some 0 := by
  decide

/-- C7 (amended): `SendResponse` ignores the `write` result entirely — the
outcome is the same for every write result, the registry is untouched (so no
closure, no removal, no propagation beyond the connection), the descriptor is
re-armed, and the context is reset. -/
theorem SendResponse_ignores_write_result (w w2 : WriteRes) (slide : Nat → Nat → Nat)
    (cfg : Config) (p : PerSocketContextObject) (h : Heap) (r : Registry) :
    SendResponse w slide cfg p h r = SendResponse w2 slide cfg p h r
    ∧ (SendResponse w slide cfg p h r).reg = r
    ∧ (SendResponse w slide cfg p h r).rearmed = true
    ∧ (SendResponse w slide cfg p h r).ctx = (ResetContextObjects slide cfg p h).1
    ∧ (SendResponse w slide cfg p h r).heap = (ResetContextObjects slide cfg p h).2 := by
  exact ⟨rfl, rfl, rfl, rfl, rfl⟩

/-- A second context colliding on descriptor 5 (self-pointer 2). -/
def dupCtxEx : PerSocketContextObject := { defaultPSCO with fd := 5, self := 2 }

/-- C8 counterexample: inserting a context for a descriptor already present
does not fail with any error — `std::map::insert` silently keeps the existing
entry (5 still maps to the old pointer 1, the new context pointer 2 is
dropped), and the discarded return value is the only place the collision
could have been observed. -/
theorem duplicate_insert_counterexample :
    AddPerSocketContextObject dupCtxEx [(5, 1)] = [(5, 1)]
    ∧ regLookup (AddPerSocketContextObject dupCtxEx [(5, 1)]) 5 = some 1 := by
  decide

/-- C8 (amended): for every sorted registry already containing the
descriptor, `AddPerSocketContextObject` is a silent no-op: the registry is
returned unchanged, no error of any kind is reported. -/
theorem AddPerSocketContextObject_duplicate_noop (p : PerSocketContextObject) (r : Registry)
    (w : Nat) (hs : regSortedB r = true) (hl : regLookup r p.fd = some w) :
    AddPerSocketContextObject p r = r :=
  regInsert_sorted_dup r p.fd p.self w hs hl

/-- Witness for the amended C8 theorem at a concrete registry. -/
theorem AddPerSocketContextObject_duplicate_noop_witness :
    AddPerSocketContextObject dupCtxEx [(3, 9), (5, 1)] = [(3, 9), (5, 1)] :=
  AddPerSocketContextObject_duplicate_noop dupCtxEx [(3, 9), (5, 1)] 1 (by decide) (by decide)

/-- C10: looking up a descriptor that is not in the registry does not return
an absent result and does not leave the registry unchanged:
`GetPerSocketContextObject` default-inserts a null entry for the descriptor
(`psco_map[fd]` semantics) and returns the null pointer, so the registry
grows by one entry. -/
theorem GetPerSocketContextObject_default_inserts (r : Registry) (fd : Nat)
    (hl : regLookup r fd = none) :
    GetPerSocketContextObject r fd = (0, regInsert r fd 0)
    ∧ regLookup (GetPerSocketContextObject r fd).2 fd = some 0
    ∧ (GetPerSocketContextObject r fd).2 ≠ r := by
  have h1 : GetPerSocketContextObject r fd = (0, regInsert r fd 0) := by
    simp [GetPerSocketContextObject, regIndex, hl]
  refine ⟨h1, ?_, ?_⟩
  · rw [h1]
    exact regLookup_insert_self r fd 0 hl
  · rw [h1]
    intro hcontra
    have hc2 : regInsert r fd 0 = r := hcontra
    have hlen := regInsert_length r fd 0 hl
    rw [hc2] at hlen
    omega

/-- Witness for the C10 theorem at a concrete registry without descriptor 5. -/
theorem GetPerSocketContextObject_default_inserts_witness :
    regLookup [(3, 7)] 5 = none
    ∧ (GetPerSocketContextObject [(3, 7)] 5 = (0, regInsert [(3, 7)] 5 0)
       ∧ regLookup (GetPerSocketContextObject [(3, 7)] 5).2 5 = some 0
       ∧ (GetPerSocketContextObject [(3, 7)] 5).2 ≠ [(3, 7)]) :=
  ⟨by decide, GetPerSocketContextObject_default_inserts [(3, 7)] 5 (by decide)⟩

/-- C9 counterexample: when `listen` fails after a successful bind,
`StartSocketServer` returns the error without closing the listening socket
(descriptor 0 is still open), contradicting the claim that the listening
socket is closed before returning on listen failure. -/
theorem StartSocketServer_listen_leak :
    StartSocketServer ⟨true, [(true, true)], false, true⟩ = StartOutcome.failListen [0]
    ∧ [0] ≠ ([] : List Nat) := by
  decide

/-- C9 (amended): resource release on each failure path of `StartSocketServer`
as the source actually behaves: nothing is acquired on address-resolution
failure; on bind exhaustion every candidate socket has been closed but the
resolved address list is not freed; on listen failure the listening socket is
left open; on monitor-initialisation failure the listening socket is closed;
on success exactly the listening socket is open. -/
theorem StartSocketServer_cleanup (o : StartOracle) :
    match StartSocketServer o with
    | StartOutcome.failGetAddr => True
    | StartOutcome.failBind s f => s = [] ∧ f = false
    | StartOutcome.failListen s => ∃ fd, s = [fd]
    | StartOutcome.failMonitor s => s = []
    | StartOutcome.started fd s => s = [fd] := by
  obtain ⟨gai, cands, lOk, mOk⟩ := o
  cases gai with
  | false => simp [StartSocketServer]
  | true =>
    rcases bindLoop_spec cands 0 with hb | ⟨fd, hb⟩
    · simp [StartSocketServer, hb]
    · cases lOk with
      | false =>
        simp only [StartSocketServer, hb, Bool.not_true, Bool.not_false, if_false, if_true]
        exact ⟨fd, rfl⟩
      | true =>
        cases mOk with
        | false => simp [StartSocketServer, hb]
        | true => simp [StartSocketServer, hb]


/-- C4: `ResetContextObjects` recomputes the running average with the sliding
window (abstracted as `slide` because the float weights live outside the
source tree), clamps it to the configured minimum, and reallocates the
receive buffer down to exactly the new average iff the shrink test
(`new average < capacity / 2`, per the source comment) fires; otherwise the
buffer identity and capacity are untouched. In the shrink case the old
buffer block is freed and a fresh live block of exactly the new average size
is installed. -/
theorem ResetContextObjects_avg_clamp_shrink (slide : Nat → Nat → Nat) (cfg : Config)
    (p : PerSocketContextObject) (h : Heap) (hwf : heapWF h)
    (hbuf : blockLive h p.RecvBuffer = true) :
    ∀ q h2, ResetContextObjects slide cfg p h = (q, h2) →
      q.avg_RecvBufferLen
        = max (slide p.avg_RecvBufferLen p.ReceivedMessageBodyBytes) cfg.RecvBufferSize
      ∧ cfg.RecvBufferSize ≤ q.avg_RecvBufferLen
      ∧ (if shrinkCond q.avg_RecvBufferLen p.RecvBufferLen then
           q.RecvBufferLen = q.avg_RecvBufferLen
           ∧ q.RecvBuffer ≠ p.RecvBuffer
           ∧ blockLive h2 p.RecvBuffer = false
           ∧ blockLive h2 q.RecvBuffer = true
           ∧ blockSize h2 q.RecvBuffer = q.avg_RecvBufferLen
         else q.RecvBufferLen = p.RecvBufferLen ∧ q.RecvBuffer = p.RecvBuffer) := by
  intro q h2 heq
  have hlt : p.RecvBuffer < h.next := by
    cases hcase : h.lookupB p.RecvBuffer with
    | none => rw [blockLive, hcase] at hbuf; cases hbuf
    | some b => exact hwf _ (blkLookup_mem h.blocks p.RecvBuffer b hcase)
  by_cases hc : shrinkCond (max (slide p.avg_RecvBufferLen p.ReceivedMessageBodyBytes)
      cfg.RecvBufferSize) p.RecvBufferLen = true
  · simp only [ResetContextObjects, hc, if_true, Heap.free, Heap.alloc] at heq
    injection heq with heq1 heq2
    subst heq1
    subst heq2
    refine ⟨rfl, Nat.le_max_right _ _, ?_⟩
    rw [if_pos hc]
    refine ⟨rfl, Nat.ne_of_gt hlt, ?_, ?_, ?_⟩
    · rw [blockLive, Heap.lookupB]
      show ((blkLookup (_ :: updBlocks (updBlocks h.blocks p.Message _) p.RecvBuffer _)
          p.RecvBuffer).getD ⟨false, 0, []⟩).live = false
      simp only [blkLookup]
      rw [if_neg (Nat.ne_of_gt hlt), blkLookup_updBlocks_self]
      cases blkLookup (updBlocks h.blocks p.Message fun b => ⟨false, b.size, b.data⟩)
          p.RecvBuffer <;> rfl
    · rw [blockLive, Heap.lookupB]
      show ((blkLookup (_ :: _) h.next).getD ⟨false, 0, []⟩).live = true
      simp [blkLookup]
    · rw [blockSize, Heap.lookupB]
      show ((blkLookup (_ :: _) h.next).getD ⟨false, 0, []⟩).size = _
      simp [blkLookup]
  · simp only [ResetContextObjects, hc, if_false, Bool.false_eq_true] at heq
    injection heq with heq1 heq2
    subst heq1
    subst heq2
    refine ⟨rfl, Nat.le_max_right _ _, ?_⟩
    rw [if_neg hc]
    exact ⟨rfl, rfl⟩

/-- A context that has grown its buffer to 16 bytes and just consumed a
0-byte message (so the clamped average falls to the 4-byte minimum). -/
def p4Ex : PerSocketContextObject :=
  { fd := 5, self := 0, RecvBuffer := 1, RecvBufferLen := 16, avg_RecvBufferLen := 4,
    Message := 1, ReceivedMessageBodyBytes := 0, RemainingBytesToSend := 0,
    WaitingHandshakeMessage := false }

/-- Witness for the C4 theorem: on `p4Ex` the shrink fires, the capacity drops
to the clamped average 4 and the old buffer block is freed. -/
theorem ResetContextObjects_avg_clamp_shrink_witness :
    (ResetContextObjects slideDefault cfgEx p4Ex allocEx.2).1.RecvBufferLen = 4
    ∧ blockLive (ResetContextObjects slideDefault cfgEx p4Ex allocEx.2).2 p4Ex.RecvBuffer
      = false := by
  have hmain := ResetContextObjects_avg_clamp_shrink slideDefault cfgEx p4Ex allocEx.2
    (by decide) (by decide)
    (ResetContextObjects slideDefault cfgEx p4Ex allocEx.2).1
    (ResetContextObjects slideDefault cfgEx p4Ex allocEx.2).2 rfl
  obtain ⟨ha, -, hif⟩ := hmain
  rw [if_pos (by decide)] at hif
  refine ⟨?_, hif.2.2.1⟩
  rw [hif.1, ha]
  decide

/-- One step of the capacity-touching operations keeps the capacity at or
above the configured minimum. -/
theorem applyOp_min_le (slide : Nat → Nat → Nat) (cfg : Config)
    (s : PerSocketContextObject × Heap) (op : ConnOp)
    (hmin : cfg.RecvBufferSize ≤ s.1.RecvBufferLen) :
    cfg.RecvBufferSize ≤ (applyOp slide cfg s op).1.RecvBufferLen := by
  cases op with
  | grow L m =>
    simp only [applyOp, growBuffer]
    by_cases hg : s.1.RecvBufferLen < L
    · rw [if_pos hg]
      exact Nat.le_of_lt (Nat.lt_of_le_of_lt hmin hg)
    · rw [if_neg hg]
      exact hmin
  | reset b =>
    simp only [applyOp]
    by_cases hc : shrinkCond (max (slide s.1.avg_RecvBufferLen b) cfg.RecvBufferSize)
        s.1.RecvBufferLen = true
    · simp only [ResetContextObjects, hc, if_true]
      exact Nat.le_max_right _ _
    · simp only [ResetContextObjects, hc, if_false, Bool.false_eq_true]
      exact hmin

/-- C5 (amended): starting from allocation, every sequence of buffer growth
and reset operations keeps `RecvBufferLen` at or above the configured
minimum; moreover once the capacity is at most twice the minimum, a reset can
never shrink it again (the clamped average is at least the minimum, which is
at least half the capacity), so the capacity does not in general converge to
the minimum — it merely never drops below it. -/
theorem recvBufferLen_min_invariant (slide : Nat → Nat → Nat) (cfg : Config) (fd : Nat)
    (hs : Bool) (ops : List ConnOp) :
    cfg.RecvBufferSize ≤
      (applyOps slide cfg (AllocatePerSocketContextObject cfg fd emptyHeap hs) ops).1.RecvBufferLen
    ∧ ∀ p h, p.RecvBufferLen ≤ 2 * cfg.RecvBufferSize →
        (ResetContextObjects slide cfg p h).1.RecvBufferLen = p.RecvBufferLen := by
  constructor
  · have hstart : cfg.RecvBufferSize ≤
        (AllocatePerSocketContextObject cfg fd emptyHeap hs).1.RecvBufferLen :=
      Nat.le_refl _
    generalize AllocatePerSocketContextObject cfg fd emptyHeap hs = s at hstart ⊢
    induction ops generalizing s with
    | nil => exact hstart
    | cons op ops ih =>
      show cfg.RecvBufferSize ≤ ((op :: ops).foldl (applyOp slide cfg) s).1.RecvBufferLen
      rw [List.foldl_cons]
      exact ih _ (applyOp_min_le slide cfg s op hstart)
  · intro p h hple
    by_cases hc : shrinkCond (max (slide p.avg_RecvBufferLen p.ReceivedMessageBodyBytes)
        cfg.RecvBufferSize) p.RecvBufferLen = true
    · exfalso
      have h2 : 2 * max (slide p.avg_RecvBufferLen p.ReceivedMessageBodyBytes)
          cfg.RecvBufferSize < p.RecvBufferLen := by
        simpa [shrinkCond] using hc
      have h3 := Nat.le_max_right (slide p.avg_RecvBufferLen p.ReceivedMessageBodyBytes)
        cfg.RecvBufferSize
      omega
    · simp only [ResetContextObjects, hc, if_false, Bool.false_eq_true]

/-- Witness for the amended C5 theorem: a concrete operation sequence keeps
the capacity at the minimum bound, and a capacity of 6 ≤ 2·4 survives a reset
unchanged. -/
theorem recvBufferLen_min_invariant_witness :
    cfgEx.RecvBufferSize ≤
      (applyOps slideDefault cfgEx (AllocatePerSocketContextObject cfgEx 5 emptyHeap false)
        [ConnOp.grow 16 false, ConnOp.reset 0, ConnOp.reset 0]).1.RecvBufferLen
    ∧ (ResetContextObjects slideDefault cfgEx
        { p4Ex with RecvBufferLen := 6 } allocEx.2).1.RecvBufferLen
      = ({ p4Ex with RecvBufferLen := 6 } : PerSocketContextObject).RecvBufferLen :=
  ⟨(recvBufferLen_min_invariant slideDefault cfgEx 5 false
      [ConnOp.grow 16 false, ConnOp.reset 0, ConnOp.reset 0]).1,
   (recvBufferLen_min_invariant slideDefault cfgEx 5 false []).2
      { p4Ex with RecvBufferLen := 6 } allocEx.2 (by decide)⟩

/-- The C5 convergence scenario: grow to twice the minimum, then receive
many empty-body messages. -/
def convOps : List ConnOp := ConnOp.grow 8 false :: List.replicate 10 (ConnOp.reset 0)

set_option maxRecDepth 4000 in
/-- C5 counterexample: with minimum buffer size 4, a connection whose buffer
grew to 8 = 2·minimum and which then repeatedly consumes 0-byte bodies
(smaller than minimum/shrink-ratio) keeps capacity 8 forever — one more reset
still leaves 8 — so the capacity does not converge to the configured
minimum 4; the shrink test `avg < capacity / 2` can never fire because the
clamped average never drops below the minimum = capacity / 2. -/
theorem recvBufferLen_no_convergence :
    (applyOps slideDefault cfgEx (AllocatePerSocketContextObject cfgEx 5 emptyHeap false)
      convOps).1.RecvBufferLen = 8
    ∧ (applyOps slideDefault cfgEx (AllocatePerSocketContextObject cfgEx 5 emptyHeap false)
        (convOps ++ [ConnOp.reset 0])).1.RecvBufferLen = 8
    ∧ cfgEx.RecvBufferSize = 4
    ∧ (8 : Nat) ≠ 4 := by
  decide

/-- The capacity `RecvBufferLen` produced by the buffer-sizing step. -/
theorem growBuffer_len (p : PerSocketContextObject) (h : Heap) (L : Nat) (m : Bool) :
    (growBuffer p h L m).1.RecvBufferLen
      = if p.RecvBufferLen < L then L else p.RecvBufferLen := by
  by_cases hg : p.RecvBufferLen < L
  · simp [growBuffer, hg]
  · simp [growBuffer, hg]

/-- C6: the buffer-sizing step of the receive pipeline is monotone — the
resulting capacity is at least the decoded body length and at least the
previous capacity, equals exactly the body length when that exceeds the old
capacity, and is unchanged otherwise; consequently a successful `ProcessRecv`
never shrinks the capacity. -/
theorem growBuffer_monotone (p : PerSocketContextObject) (h : Heap) (L : Nat) (m : Bool) :
    L ≤ max L p.RecvBufferLen
    ∧ (growBuffer p h L m).1.RecvBufferLen = max L p.RecvBufferLen
    ∧ p.RecvBufferLen ≤ (growBuffer p h L m).1.RecvBufferLen
    ∧ L ≤ (growBuffer p h L m).1.RecvBufferLen
    ∧ (p.RecvBufferLen < L → (growBuffer p h L m).1.RecvBufferLen = L)
    ∧ (L ≤ p.RecvBufferLen → (growBuffer p h L m).1.RecvBufferLen = p.RecvBufferLen)
    ∧ (∀ r stream evs q h2 r2, ProcessRecv p h r stream evs m = RecvOutcome.ok q h2 r2 →
        p.RecvBufferLen ≤ q.RecvBufferLen) := by
  have hlen : (growBuffer p h L m).1.RecvBufferLen = max L p.RecvBufferLen := by
    rw [growBuffer_len]
    by_cases hg : p.RecvBufferLen < L
    · rw [if_pos hg]
      omega
    · rw [if_neg hg]
      omega
  refine ⟨Nat.le_max_left _ _, hlen, ?_, ?_, ?_, ?_, ?_⟩
  · rw [hlen]; exact Nat.le_max_right _ _
  · rw [hlen]; exact Nat.le_max_left _ _
  · intro hg; rw [growBuffer_len, if_pos hg]
  · intro hg; rw [growBuffer_len, if_neg (Nat.not_lt.mpr hg)]
  · intro r stream evs q h2 r2 heq
    rw [ProcessRecv] at heq
    cases hh : headerLoop evs stream 0 headerLength (List.replicate 4 0) with
    | stuck pp bl buf => rw [hh] at heq; cases heq
    | done buf evs2 stream2 =>
      rw [hh] at heq
      simp only at heq
      have hshape := bodyLoop_ok_shape evs2 stream2 0 (decodeU32 buf) (decodeU32 buf)
        p.RecvBuffer (growBuffer p h (decodeU32 buf) m).1 (growBuffer p h (decodeU32 buf) m).2
        r q h2 r2 heq
      rw [hshape.1]
      show p.RecvBufferLen ≤ (growBuffer p h (decodeU32 buf) m).1.RecvBufferLen
      rw [growBuffer_len]
      by_cases hg : p.RecvBufferLen < decodeU32 buf
      · rw [if_pos hg]; omega
      · rw [if_neg hg]

/-- The receive pipeline evaluated with an in-place (non-moving) realloc, used
by the C6 witness. -/
def recvInPlaceEx : RecvOutcome :=
  ProcessRecv allocEx.1 allocEx.2 [] (encodeU32 6 ++ [10, 11, 12, 13, 14, 15])
    [ReadEv.deliver 4, ReadEv.deliver 6] false

/-- Witness for the C6 theorem: growing a 4-byte buffer for a 6-byte body
yields capacity exactly 6, and a successful receive does not shrink it. -/
theorem growBuffer_monotone_witness :
    (growBuffer allocEx.1 allocEx.2 6 false).1.RecvBufferLen = 6
    ∧ allocEx.1.RecvBufferLen ≤ (recvCtx recvInPlaceEx).RecvBufferLen := by
  refine ⟨?_, ?_⟩
  · exact (growBuffer_monotone allocEx.1 allocEx.2 6 false).2.2.2.2.1 (by decide)
  · exact (growBuffer_monotone allocEx.1 allocEx.2 6 false).2.2.2.2.2.2 []
      (encodeU32 6 ++ [10, 11, 12, 13, 14, 15]) [ReadEv.deliver 4, ReadEv.deliver 6]
      (recvCtx recvInPlaceEx) (recvHeap recvInPlaceEx) (recvReg recvInPlaceEx) (by decide)

theorem dataOf_write_of_lookup (h : Heap) (i off : Nat) (bs : List Nat) (b : Block)
    (hl : h.lookupB i = some b) :
    dataOf (h.write i off bs) i = writeExt b.data off bs := by
  rw [Heap.lookupB] at hl
  rw [dataOf, Heap.write, Heap.lookupB]
  dsimp only
  rw [blkLookup_updBlocks_self, hl]
  rfl

/-- Finishing a receive whose single body read delivers everything: the
outcome is `ok`, the registry is untouched, the body length is recorded, and
the bytes written through the captured buffer pointer are the wire body. -/
theorem recv_finish (g : PerSocketContextObject × Heap) (body : List Nat) (r : Registry)
    (bufId : Nat) (b : Block) (hl : g.2.lookupB bufId = some b) :
    recvOk (bodyLoop [ReadEv.deliver body.length] body 0 body.length body.length bufId
        g.1 g.2 r) = true
    ∧ recvReg (bodyLoop [ReadEv.deliver body.length] body 0 body.length body.length bufId
        g.1 g.2 r) = r
    ∧ (recvCtx (bodyLoop [ReadEv.deliver body.length] body 0 body.length body.length bufId
        g.1 g.2 r)).ReceivedMessageBodyBytes = body.length
    ∧ (recvCtx (bodyLoop [ReadEv.deliver body.length] body 0 body.length body.length bufId
        g.1 g.2 r)).Message = bufId
    ∧ readBytes (recvHeap (bodyLoop [ReadEv.deliver body.length] body 0 body.length
        body.length bufId g.1 g.2 r)) bufId 0 body.length = body := by
  cases body with
  | nil =>
    rw [show ([] : List Nat).length = 0 from rfl, bodyLoop_done]
    exact ⟨rfl, rfl, rfl, rfl, rfl⟩
  | cons x xs =>
    rw [show (x :: xs).length = xs.length + 1 from rfl,
      bodyLoop_deliver_all xs.length [] (x :: xs) (xs.length + 1) bufId g.1 g.2 r rfl]
    refine ⟨rfl, rfl, rfl, rfl, ?_⟩
    show readBytes (g.2.write bufId 0 (x :: xs)) bufId 0 (xs.length + 1) = x :: xs
    rw [readBytes, dataOf_write_of_lookup g.2 bufId 0 (x :: xs) b hl, List.drop_zero]
    have := writeExt_take (x :: xs) b.data
    rw [show (x :: xs).length = xs.length + 1 from rfl] at this
    exact this

/-- C1: round-trip through the receive pipeline. For a fresh connection and a
well-formed wire input (4-byte little-endian length prefix followed by exactly
that many body bytes, delivered by reads that return all requested bytes),
`ProcessRecv` succeeds, leaves the registry alone, records
`ReceivedMessageBodyBytes` equal to the body length and the bytes reachable
through `Message` equal to the original body — for each of the body sizes
named by the specification and whether or not the growth realloc relocates
the buffer. (For sizes above the default the bytes land in the pre-realloc
allocation `Message` points to; see the C3 analysis for that aliasing bug.) -/
theorem ProcessRecv_roundtrip (cfg : Config) (body : List Nat) (moved handshake : Bool)
    (fd : Nat) (r : Registry) (hL : body.length < U32)
    (hsz : body.length = 0 ∨ body.length = 1 ∨ body.length = cfg.RecvBufferSize - 1 ∨
      body.length = cfg.RecvBufferSize ∨ body.length = cfg.RecvBufferSize + 1 ∨
      body.length = 10 * cfg.RecvBufferSize) :
    recvOk (ProcessRecv (AllocatePerSocketContextObject cfg fd emptyHeap handshake).1
        (AllocatePerSocketContextObject cfg fd emptyHeap handshake).2 r
        (encodeU32 body.length ++ body)
        [ReadEv.deliver 4, ReadEv.deliver body.length] moved) = true
    ∧ recvReg (ProcessRecv (AllocatePerSocketContextObject cfg fd emptyHeap handshake).1
        (AllocatePerSocketContextObject cfg fd emptyHeap handshake).2 r
        (encodeU32 body.length ++ body)
        [ReadEv.deliver 4, ReadEv.deliver body.length] moved) = r
    ∧ (recvCtx (ProcessRecv (AllocatePerSocketContextObject cfg fd emptyHeap handshake).1
        (AllocatePerSocketContextObject cfg fd emptyHeap handshake).2 r
        (encodeU32 body.length ++ body)
        [ReadEv.deliver 4, ReadEv.deliver body.length] moved)).ReceivedMessageBodyBytes
      = body.length
    ∧ readBytes
        (recvHeap (ProcessRecv (AllocatePerSocketContextObject cfg fd emptyHeap handshake).1
          (AllocatePerSocketContextObject cfg fd emptyHeap handshake).2 r
          (encodeU32 body.length ++ body)
          [ReadEv.deliver 4, ReadEv.deliver body.length] moved))
        ((recvCtx (ProcessRecv (AllocatePerSocketContextObject cfg fd emptyHeap handshake).1
          (AllocatePerSocketContextObject cfg fd emptyHeap handshake).2 r
          (encodeU32 body.length ++ body)
          [ReadEv.deliver 4, ReadEv.deliver body.length] moved)).Message) 0 body.length
      = body := by
  have hdr : headerLoop [ReadEv.deliver 4, ReadEv.deliver body.length]
      (encodeU32 body.length ++ body) 0 headerLength (List.replicate 4 0)
      = HeaderRes.done (encodeU32 body.length) [ReadEv.deliver body.length] body := by
    simp [headerLoop, writeAt, encodeU32, headerLength]
  have hdec : decodeU32 (encodeU32 body.length) = body.length := decode_encode body.length hL
  have hmain : ProcessRecv (AllocatePerSocketContextObject cfg fd emptyHeap handshake).1
      (AllocatePerSocketContextObject cfg fd emptyHeap handshake).2 r
      (encodeU32 body.length ++ body)
      [ReadEv.deliver 4, ReadEv.deliver body.length] moved
      = bodyLoop [ReadEv.deliver body.length] body 0 body.length body.length 1
        (growBuffer (AllocatePerSocketContextObject cfg fd emptyHeap handshake).1
          (AllocatePerSocketContextObject cfg fd emptyHeap handshake).2 body.length moved).1
        (growBuffer (AllocatePerSocketContextObject cfg fd emptyHeap handshake).1
          (AllocatePerSocketContextObject cfg fd emptyHeap handshake).2 body.length moved).2
        r := by
    rw [ProcessRecv, hdr]
    show bodyLoop _ _ 0 (decodeU32 (encodeU32 body.length)) (decodeU32 (encodeU32 body.length))
      _ _ _ r = _
    rw [hdec]
    rfl
  rw [hmain]
  have hlook : ∃ b, (growBuffer (AllocatePerSocketContextObject cfg fd emptyHeap handshake).1
      (AllocatePerSocketContextObject cfg fd emptyHeap handshake).2 body.length moved).2.lookupB 1
      = some b := by
    by_cases hg : (AllocatePerSocketContextObject cfg fd emptyHeap
        handshake).1.RecvBufferLen < body.length
    · cases moved with
      | true =>
        refine ⟨⟨false, cfg.RecvBufferSize, List.replicate cfg.RecvBufferSize 0⟩, ?_⟩
        simp only [growBuffer, if_pos hg]
        show (Heap.reallocB _ 1 body.length true).2.lookupB 1 = _
        simp [Heap.reallocB, Heap.free, updBlocks, Heap.lookupB, blkLookup,
          AllocatePerSocketContextObject, emptyHeap, Heap.alloc]
      | false =>
        refine ⟨⟨true, body.length,
          (List.replicate cfg.RecvBufferSize 0 ++
            List.replicate (body.length - (List.replicate cfg.RecvBufferSize 0).length) 0).take
            body.length⟩, ?_⟩
        simp only [growBuffer, if_pos hg]
        show (Heap.reallocB _ 1 body.length false).2.lookupB 1 = _
        simp [Heap.reallocB, updBlocks, Heap.lookupB, blkLookup,
          AllocatePerSocketContextObject, emptyHeap, Heap.alloc]
    · refine ⟨⟨true, cfg.RecvBufferSize, List.replicate cfg.RecvBufferSize 0⟩, ?_⟩
      simp only [growBuffer, if_neg hg]
      simp [AllocatePerSocketContextObject, emptyHeap, Heap.alloc, Heap.lookupB, blkLookup]
  obtain ⟨b, hlook⟩ := hlook
  have hfin := recv_finish
    (growBuffer (AllocatePerSocketContextObject cfg fd emptyHeap handshake).1
      (AllocatePerSocketContextObject cfg fd emptyHeap handshake).2 body.length moved)
    body r 1 b hlook
  refine ⟨hfin.1, hfin.2.1, hfin.2.2.1, ?_⟩
  rw [hfin.2.2.2.1]
  exact hfin.2.2.2.2

/-- The receive pipeline on a fresh connection (minimum buffer 4) receiving a
40-byte body (10 × the default buffer size) with a relocating realloc. -/
def recvBigEx : RecvOutcome :=
  ProcessRecv (AllocatePerSocketContextObject cfgEx 5 emptyHeap false).1
    (AllocatePerSocketContextObject cfgEx 5 emptyHeap false).2 []
    (encodeU32 (List.replicate 40 7).length ++ List.replicate 40 7)
    [ReadEv.deliver 4, ReadEv.deliver (List.replicate 40 7).length] true

/-- Witness for the C1 theorem at the 10×default body size with a moving
realloc. -/
theorem ProcessRecv_roundtrip_witness :
    recvOk recvBigEx = true
    ∧ recvReg recvBigEx = []
    ∧ (recvCtx recvBigEx).ReceivedMessageBodyBytes = (List.replicate 40 7).length
    ∧ readBytes (recvHeap recvBigEx) (recvCtx recvBigEx).Message 0
        (List.replicate 40 7).length = List.replicate 40 7 :=
  ProcessRecv_roundtrip cfgEx (List.replicate 40 7) true false 5 [] (by decide) (by decide)
